import Mathlib

/-!
Shallow embedding of `src/FuelMap.cpp` (FuelMap repository).

C++ `double` arithmetic is modelled exactly over `ℚ`; `int` becomes `ℤ`.
Raw-pointer axis/table storage is modelled as `List` with `getD _ 0`
for element access (a read past the end of a C++ array is undefined
behaviour; the default `0` stands in for the unspecified value read).
Note that in Lean `x / 0 = 0` on `ℚ`, whereas IEEE doubles give ±inf/NaN;
every theorem below that depends on a division carries hypotheses that
keep the divisor nonzero, except where the point is precisely that the
code performs an unguarded division.
-/

namespace FuelMapSim

/-- Compile time constant `RPM_POINTS = 6` from the source. -/
def RPM_POINTS : Nat := 6

/-- Compile time constant `LOAD_POINTS = 5` from the source. -/
def LOAD_POINTS : Nat := 5

/-- Compile time constant `FuelMap::TABLE_SIZE = RPM_POINTS * LOAD_POINTS`. -/
def TABLE_SIZE : Nat := RPM_POINTS * LOAD_POINTS

/-- Embedding of `struct EngineState` from the source: rpm, map (kPa), airMass (g/cycle),
coolantTempC, measuredAFR. -/
structure EngineState where
  rpm : Int
  map : Int
  airMass : ℚ
  coolantTempC : ℚ
  measuredAFR : ℚ
deriving Repr, DecidableEq

/-- Embedding of `class Injector`: holds `flowRate` in grams per millisecond. -/
structure Injector where
  flowRate : ℚ
deriving Repr, DecidableEq

/-- Source method `Injector::pulseWidth`: `fuelMass / flowRate`. -/
def Injector.pulseWidth (inj : Injector) (fuelMass : ℚ) : ℚ :=
  fuelMass / inj.flowRate

/-- Embedding of the `class FuelMap` data: the two axis pointers and the copied AFR table. -/
structure FuelMap where
  rpmAxis : List Int
  loadAxis : List Int
  afrTable : List ℚ
deriving Repr, DecidableEq

/-- The scan loop inside `FuelMap::lowerIndex`:
`for (int i = 0; i < size - 1; ++i) if (value >= axis[i] && value <= axis[i+1]) return i;`
followed by `return 0;`.  `fuel` counts the remaining iterations. -/
def lowerIndexLoop (axis : List Int) (value : Int) : Nat → Nat → Nat
  | _, 0 => 0
  | i, fuel + 1 =>
      if axis.getD i 0 ≤ value ∧ value ≤ axis.getD (i + 1) 0 then i
      else lowerIndexLoop axis value (i + 1) fuel

/-- Source method `FuelMap::lowerIndex(axis, size, value)` from the source. -/
def lowerIndex (axis : List Int) (size : Nat) (value : Int) : Nat :=
  if value ≤ axis.getD 0 0 then 0
  else if axis.getD (size - 1) 0 ≤ value then size - 2
  else lowerIndexLoop axis value 0 (size - 1)

/-- Source method `FuelMap::lerp(a, b, t) = a + t * (b - a)`. -/
def lerp (a b t : ℚ) : ℚ := a + t * (b - a)

/-- Source method `FuelMap::index(loadIndex, rpmIndex) = loadIndex * RPM_POINTS + rpmIndex`. -/
def tableIndex (loadIndex rpmIndex : Nat) : Nat :=
  loadIndex * RPM_POINTS + rpmIndex

/-- Source method `FuelMap::applyColdStartEnrichment` from the source:
identity for `coolantTempC >= 90`, otherwise multiply by
`1.3 - (coolantTempC / 90) * 0.3`. -/
def applyColdStartEnrichment (afr coolantTempC : ℚ) : ℚ :=
  if 90 ≤ coolantTempC then afr
  else afr * (1.3 - coolantTempC / 90 * 0.3)

/-- Source method `FuelMap::applyClosedLoopCorrection` from the source:
`error = afr - measuredAFR; correctionFactor = 1 - 0.1 * error; afr * correctionFactor`. -/
def applyClosedLoopCorrection (afr measuredAFR : ℚ) : ℚ :=
  afr * (1 - 0.1 * (afr - measuredAFR))

/-- Source constructor `FuelMap::FuelMap(rpm, load, table)`: stores the axis pointers and copies
`TABLE_SIZE` entries from `table` with no size validation.  Reading past the
end of a shorter C++ array is undefined behaviour; it is modelled by the
`getD` default `0`. -/
def FuelMap.construct (rpm load : List Int) (table : List ℚ) : FuelMap :=
  { rpmAxis := rpm
    loadAxis := load
    afrTable := (List.range TABLE_SIZE).map (fun i => table.getD i 0) }

/-- Source method `FuelMap::targetAFR(rpm, load)` from the source: axis search on both
axes, then bilinear interpolation of the four surrounding table cells. -/
def FuelMap.targetAFR (m : FuelMap) (rpm load : Int) : ℚ :=
  let r := lowerIndex m.rpmAxis RPM_POINTS rpm
  let l := lowerIndex m.loadAxis LOAD_POINTS load
  let rT : ℚ := ((rpm - m.rpmAxis.getD r 0 : Int) : ℚ) /
    ((m.rpmAxis.getD (r + 1) 0 - m.rpmAxis.getD r 0 : Int) : ℚ)
  let lT : ℚ := ((load - m.loadAxis.getD l 0 : Int) : ℚ) /
    ((m.loadAxis.getD (l + 1) 0 - m.loadAxis.getD l 0 : Int) : ℚ)
  let q11 := m.afrTable.getD (tableIndex l r) 0
  let q12 := m.afrTable.getD (tableIndex l (r + 1)) 0
  let q21 := m.afrTable.getD (tableIndex (l + 1) r) 0
  let q22 := m.afrTable.getD (tableIndex (l + 1) (r + 1)) 0
  let r1 := lerp q11 q12 rT
  let r2 := lerp q21 q22 rT
  lerp r1 r2 lT

/-- Source method `FuelMap::getFinalAFR`: targetAFR, then cold-start enrichment, then
closed-loop correction. -/
def FuelMap.getFinalAFR (m : FuelMap) (rpm load : Int)
    (coolantTempC measuredAFR : ℚ) : ℚ :=
  applyClosedLoopCorrection
    (applyColdStartEnrichment (m.targetAFR rpm load) coolantTempC)
    measuredAFR

/-- Embedding of `class FuelController`: a fuel map plus an injector. -/
structure FuelController where
  fuelMap : FuelMap
  injector : Injector
deriving Repr, DecidableEq

/-- Source method `FuelController::computePulseWidth`: final AFR, then
`fuelMass = airMass / afr`, then `injector.pulseWidth(fuelMass)`. -/
def FuelController.computePulseWidth (c : FuelController) (s : EngineState) : ℚ :=
  let afr := c.fuelMap.getFinalAFR s.rpm s.map s.coolantTempC s.measuredAFR
  let fuelMass := s.airMass / afr
  c.injector.pulseWidth fuelMass

/-- The rpm axis defined in `main`. -/
def mainRpmAxis : List Int := [1000, 2000, 3000, 4000, 5000, 6000]

/-- The load axis defined in `main`. -/
def mainLoadAxis : List Int := [20, 40, 60, 80, 100]

/-- The AFR table defined in `main` (row-major, load rows of RPM_POINTS entries). -/
def mainAfrTable : List ℚ :=
  [14.7, 14.7, 14.7, 14.7, 14.7, 14.7,
   14.3, 14.1, 13.9, 13.7, 13.6, 13.6,
   13.6, 13.3, 13.0, 12.8, 12.8, 12.8,
   12.9, 12.6, 12.3, 12.0, 12.0, 12.0,
   12.2, 12.0, 11.8, 11.6, 11.5, 11.5]

/-- The fuel map constructed in `main`. -/
def mainMap : FuelMap := FuelMap.construct mainRpmAxis mainLoadAxis mainAfrTable

/-- The injector constructed in `main` (0.02 g/ms). -/
def mainInjector : Injector := { flowRate := 0.02 }

/-- The controller constructed in `main`. -/
def mainController : FuelController :=
  { fuelMap := mainMap, injector := mainInjector }

/-- The engine state used in `main`: {3500, 80, 0.45, 20.0, 14.0}. -/
def mainState : EngineState :=
  { rpm := 3500, map := 80, airMass := 0.45, coolantTempC := 20, measuredAFR := 14 }


/-- The scan loop returns an index below `i + fuel` (or the fallthrough 0). -/
theorem lowerIndexLoop_le (axis : List Int) (value : Int) :
    ∀ (fuel i : Nat), lowerIndexLoop axis value i fuel ≤ i + fuel - 1 := by
  intro fuel
  induction fuel with
  | zero => intro i; simp [lowerIndexLoop]
  | succ n ih =>
    intro i
    simp only [lowerIndexLoop]
    split
    · omega
    · have h := ih (i + 1)
      omega

/-- The scan loop returns the first index whose interval contains the value,
provided one exists within the remaining iterations. -/
theorem lowerIndexLoop_finds (axis : List Int) (value : Int) :
    ∀ (fuel i j : Nat), j < fuel →
      (axis.getD (i + j) 0 ≤ value ∧ value ≤ axis.getD (i + j + 1) 0) →
      (∀ t, t < j → ¬(axis.getD (i + t) 0 ≤ value ∧ value ≤ axis.getD (i + t + 1) 0)) →
      lowerIndexLoop axis value i fuel = i + j := by
  intro fuel
  induction fuel with
  | zero => intro i j hj _ _; omega
  | succ n ih =>
    intro i j hj hcont hfirst
    simp only [lowerIndexLoop]
    split
    · rename_i hc
      cases j with
      | zero => simp
      | succ j0 =>
        have h0 := hfirst 0 (Nat.succ_pos j0)
        simp only [Nat.add_zero] at h0
        exact absurd hc h0
    · rename_i hc
      cases j with
      | zero =>
        simp only [Nat.add_zero] at hcont
        exact absurd hcont hc
      | succ j0 =>
        have e1 : i + (j0 + 1) = (i + 1) + j0 := by omega
        rw [e1] at hcont
        have hrec := ih (i + 1) j0 (by omega) hcont ?_
        · rw [hrec]; omega
        · intro t ht
          have e2 : (i + 1) + t = i + (t + 1) := by omega
          rw [e2]
          exact hfirst (t + 1) (by omega)

/-- Strict monotonicity of adjacent axis entries transfers to arbitrary pairs. -/
theorem axis_getD_lt (axis : List Int) (size : Nat)
    (hmono : ∀ i, i < size - 1 → axis.getD i 0 < axis.getD (i + 1) 0) :
    ∀ b a, a < b → b < size → axis.getD a 0 < axis.getD b 0 := by
  intro b
  induction b with
  | zero => intro a ha _; omega
  | succ n ih =>
    intro a ha hb
    rcases Nat.lt_succ_iff_lt_or_eq.mp ha with h | h
    · exact lt_trans (ih a h (by omega)) (hmono n (by omega))
    · subst h
      exact hmono a (by omega)

/-- The returned interval index never exceeds `size - 2`. -/
theorem lowerIndex_le (axis : List Int) (size : Nat) (value : Int)
    (hsize : 2 ≤ size) : lowerIndex axis size value ≤ size - 2 := by
  rw [lowerIndex]
  split
  · omega
  · split
    · omega
    · have h := lowerIndexLoop_le axis value (size - 1) 0
      omega


/-- C5 (amended): full characterization of the axis locator on a strictly
increasing axis of size at least 2: clamp to 0 below the axis, clamp to
`size - 2` at or above the last breakpoint, otherwise the first interval
containing the value in scan order; a query value equal to an interior
breakpoint resolves to the interval ENDING at that breakpoint (index k-1),
not the interval starting there. -/
theorem lowerIndex_characterization (axis : List Int) (size : Nat) (value : Int)
    (hsize : 2 ≤ size)
    (hmono : ∀ i, i < size - 1 → axis.getD i 0 < axis.getD (i + 1) 0) :
    (value ≤ axis.getD 0 0 → lowerIndex axis size value = 0) ∧
    (axis.getD (size - 1) 0 ≤ value → lowerIndex axis size value = size - 2) ∧
    (axis.getD 0 0 < value → value < axis.getD (size - 1) 0 →
      (axis.getD (lowerIndex axis size value) 0 ≤ value ∧
        value ≤ axis.getD (lowerIndex axis size value + 1) 0) ∧
      ∀ t, t < lowerIndex axis size value →
        ¬(axis.getD t 0 ≤ value ∧ value ≤ axis.getD (t + 1) 0)) ∧
    (∀ k, 0 < k → k + 1 < size → value = axis.getD k 0 →
      lowerIndex axis size value = k - 1) := by
  refine ⟨fun h => ?_, fun h => ?_, fun h0 h1 => ?_, fun k hk0 hk1 hkv => ?_⟩
  · rw [lowerIndex, if_pos h]
  · have hlt : axis.getD 0 0 < axis.getD (size - 1) 0 :=
      axis_getD_lt axis size hmono (size - 1) 0 (by omega) (by omega)
    rw [lowerIndex, if_neg (by omega), if_pos h]
  · -- interior: the locator lands on the first containing interval
    have hP : value < axis.getD (size - 1) 0 := h1
    have hex : ∃ n, value < axis.getD n 0 := ⟨size - 1, hP⟩
    classical
    set m := Nat.find hex with hm
    have hmspec : value < axis.getD m 0 := Nat.find_spec hex
    have hmle : m ≤ size - 1 := Nat.find_min' hex hP
    have hm0 : 0 < m := by
      rcases Nat.eq_zero_or_pos m with h | h
      · rw [h] at hmspec; omega
      · exact h
    have hmmin : ¬ value < axis.getD (m - 1) 0 := Nat.find_min hex (by omega)
    have hcont_m1 : axis.getD (m - 1) 0 ≤ value ∧ value ≤ axis.getD (m - 1 + 1) 0 := by
      constructor
      · omega
      · have : m - 1 + 1 = m := by omega
        rw [this]; omega
    have hexc : ∃ j, axis.getD j 0 ≤ value ∧ value ≤ axis.getD (j + 1) 0 := ⟨m - 1, hcont_m1⟩
    set j := Nat.find hexc with hj
    have hjspec : axis.getD j 0 ≤ value ∧ value ≤ axis.getD (j + 1) 0 :=
      Nat.find_spec hexc
    have hjle : j ≤ m - 1 := Nat.find_min' hexc hcont_m1
    have hjlt : j < size - 1 := by omega
    have hloop := lowerIndexLoop_finds axis value (size - 1) 0 j hjlt
      (by simp only [Nat.zero_add]; exact hjspec)
      (by
        intro t ht
        simp only [Nat.zero_add]
        exact Nat.find_min hexc ht)
    have hlow : lowerIndex axis size value = j := by
      rw [lowerIndex, if_neg (by omega), if_neg (by omega), hloop]
      omega
    rw [hlow]
    exact ⟨hjspec, fun t ht => Nat.find_min hexc ht⟩
  · -- value equal to an interior breakpoint: locator returns k - 1
    have h0 : axis.getD 0 0 < axis.getD k 0 :=
      axis_getD_lt axis size hmono k 0 hk0 (by omega)
    have h1 : axis.getD k 0 < axis.getD (size - 1) 0 :=
      axis_getD_lt axis size hmono (size - 1) k (by omega) (by omega)
    have hcont : axis.getD (0 + (k - 1)) 0 ≤ value ∧ value ≤ axis.getD (0 + (k - 1) + 1) 0 := by
      have e : k - 1 + 1 = k := by omega
      constructor
      · have := hmono (k - 1) (by omega)
        rw [e] at this
        simp only [Nat.zero_add]
        omega
      · simp only [Nat.zero_add, e]
        omega
    have hfirst : ∀ t, t < k - 1 →
        ¬(axis.getD (0 + t) 0 ≤ value ∧ value ≤ axis.getD (0 + t + 1) 0) := by
      intro t ht hcontra
      have : axis.getD (t + 1) 0 < axis.getD k 0 :=
        axis_getD_lt axis size hmono k (t + 1) (by omega) (by omega)
      simp only [Nat.zero_add] at hcontra
      omega
    have hloop := lowerIndexLoop_finds axis value (size - 1) 0 (k - 1) (by omega) hcont hfirst
    rw [lowerIndex, if_neg (by omega), if_neg (by omega), hloop]
    omega


/-- The engine state of the main scenario with the measured AFR replaced by 0. -/
def coldState : EngineState :=
  { rpm := 3500, map := 80, airMass := 0.45, coolantTempC := 20, measuredAFR := 0 }

/-- Concrete evaluation: the base target AFR of the main scenario. -/
theorem mainTargetAFR_eq : mainMap.targetAFR 3500 80 = 243 / 20 := by
  norm_num [mainMap, FuelMap.construct, mainAfrTable, mainRpmAxis, mainLoadAxis,
    FuelMap.targetAFR, lowerIndex, lowerIndexLoop, lerp, tableIndex,
    RPM_POINTS, LOAD_POINTS, TABLE_SIZE]

/-- Concrete evaluation: the final corrected AFR of the main scenario. -/
theorem mainFinalAFR_eq : mainMap.getFinalAFR 3500 80 20 14 = 5403591 / 400000 := by
  rw [FuelMap.getFinalAFR, mainTargetAFR_eq]
  norm_num [applyColdStartEnrichment, applyClosedLoopCorrection]

/-- Concrete evaluation: the pulse width of the main scenario. -/
theorem mainPulseWidth_eq :
    mainController.computePulseWidth mainState = 1000000 / 600399 := by
  rw [mainController, FuelController.computePulseWidth]
  simp only [mainState]
  rw [mainFinalAFR_eq]
  norm_num [Injector.pulseWidth, mainInjector]

/-- Concrete evaluation: the final corrected AFR with measured AFR 0 is negative. -/
theorem coldFinalAFR_eq : mainMap.getFinalAFR 3500 80 20 0 = -2988009 / 400000 := by
  rw [FuelMap.getFinalAFR, mainTargetAFR_eq]
  norm_num [applyColdStartEnrichment, applyClosedLoopCorrection]

/-- Concrete evaluation: the pulse width with measured AFR 0 is negative. -/
theorem coldPulseWidth_eq :
    mainController.computePulseWidth coldState = -1000000 / 332001 := by
  rw [mainController, FuelController.computePulseWidth]
  simp only [coldState]
  rw [coldFinalAFR_eq]
  norm_num [Injector.pulseWidth, mainInjector]


/-- C1: End-to-end concrete scenario: with the axes, table, injector and reading of
`main`, `targetAFR(3500,80)` is exactly 12.15, cold-start enrichment multiplies it
by `1.3 - (20/90)*0.3`, the enriched AFR is within 0.01 of 14.98, the corrected AFR
is within 0.01 of 13.51, and the computed pulse width is within 0.001 of 1.665 ms. -/
theorem claim_main_scenario :
    mainMap.targetAFR 3500 80 = 243 / 20 ∧
    applyColdStartEnrichment (mainMap.targetAFR 3500 80) 20 =
      mainMap.targetAFR 3500 80 * (1.3 - 20 / 90 * 0.3) ∧
    |applyColdStartEnrichment (mainMap.targetAFR 3500 80) 20 - 14.98| ≤ 1 / 100 ∧
    |mainMap.getFinalAFR 3500 80 20 14 - 13.51| ≤ 1 / 100 ∧
    |mainController.computePulseWidth mainState - 1.665| ≤ 1 / 1000 := by
  refine ⟨mainTargetAFR_eq, ?_, ?_, ?_, ?_⟩
  · rw [mainTargetAFR_eq]
    norm_num [applyColdStartEnrichment]
  · rw [mainTargetAFR_eq]
    norm_num [applyColdStartEnrichment, abs_le]
  · rw [mainFinalAFR_eq]
    norm_num [abs_le]
  · rw [mainPulseWidth_eq]
    norm_num [abs_le]

/-- C2 counterexample: the constructor accepts a 29-entry table against a 6-by-5
axis product and still creates a FuelMap object (with a full-length copied table),
so no `InvalidTableShape` failure occurs at construction time. -/
theorem claim_construct_validation_cx :
    (mainAfrTable.take 29).length = 29 ∧
    (mainAfrTable.take 29).length ≠ RPM_POINTS * LOAD_POINTS ∧
    (FuelMap.construct mainRpmAxis mainLoadAxis (mainAfrTable.take 29)).afrTable.length
      = TABLE_SIZE ∧
    (FuelMap.construct mainRpmAxis mainLoadAxis (mainAfrTable.take 29)).rpmAxis
      = mainRpmAxis := by
  refine ⟨?_, ?_, ?_, rfl⟩ <;>
    simp [mainAfrTable, FuelMap.construct, RPM_POINTS, LOAD_POINTS, TABLE_SIZE]

/-- C2 amended: the constructor performs no size validation; for any axis lists and
any table it unconditionally creates a FuelMap copying `TABLE_SIZE` entries. -/
theorem claim_construct_always_builds (rpm load : List Int) (table : List ℚ) :
    (FuelMap.construct rpm load table).afrTable.length = TABLE_SIZE ∧
    (FuelMap.construct rpm load table).rpmAxis = rpm ∧
    (FuelMap.construct rpm load table).loadAxis = load :=
  ⟨by simp [FuelMap.construct], rfl, rfl⟩

/-- C3 counterexample: with the main map and the reading {3500, 80, 0.45, 20, 0}
the corrected AFR is negative, yet `computePulseWidth` returns the plain value
-1000000/332001 (a negative pulse width) instead of signalling an error. -/
theorem claim_converter_no_guard_cx :
    mainMap.getFinalAFR coldState.rpm coldState.map coldState.coolantTempC
      coldState.measuredAFR < 0 ∧
    mainController.computePulseWidth coldState = -1000000 / 332001 ∧
    mainController.computePulseWidth coldState < 0 := by
  refine ⟨?_, coldPulseWidth_eq, ?_⟩
  · simp only [coldState]
    rw [coldFinalAFR_eq]
    norm_num
  · rw [coldPulseWidth_eq]
    norm_num

/-- C3 amended: `computePulseWidth` performs the division unguarded; whenever the
corrected AFR is negative and the air mass positive it returns a negative pulse
width rather than signalling an error. -/
theorem claim_converter_negative_afr (m : FuelMap) (inj : Injector) (s : EngineState)
    (hflow : 0 < inj.flowRate) (hair : 0 < s.airMass)
    (hafr : m.getFinalAFR s.rpm s.map s.coolantTempC s.measuredAFR < 0) :
    FuelController.computePulseWidth { fuelMap := m, injector := inj } s < 0 := by
  have h1 : s.airMass / m.getFinalAFR s.rpm s.map s.coolantTempC s.measuredAFR < 0 :=
    div_neg_of_pos_of_neg hair hafr
  exact div_neg_of_neg_of_pos h1 hflow

/-- Witness for the amended C3 theorem at the concrete cold reading. -/
theorem claim_converter_negative_afr_witness :
    FuelController.computePulseWidth
      { fuelMap := mainMap, injector := mainInjector } coldState < 0 :=
  claim_converter_negative_afr mainMap mainInjector coldState
    (by norm_num [mainInjector]) (by norm_num [coldState])
    (by simp only [coldState]; rw [coldFinalAFR_eq]; norm_num)


/-- A fuel map with a degenerate (constant) rpm axis, used to exercise the
zero-width interval case of `targetAFR`. -/
def degenRpmAxis : List Int := [1000, 1000, 1000, 1000, 1000, 1000]

/-- The degenerate map built from `degenRpmAxis` and the main table. -/
def degenMap : FuelMap := FuelMap.construct degenRpmAxis mainLoadAxis mainAfrTable

/-- C4 counterexample: on a degenerate rpm axis the selected interval has zero
width, yet `targetAFR` returns a plain value (12.8) instead of signalling
`AxisDegenerateError`; in IEEE double arithmetic the same computation silently
divides by zero. -/
theorem claim_degenerate_no_error_cx :
    degenMap.rpmAxis.getD (lowerIndex degenMap.rpmAxis RPM_POINTS 1500 + 1) 0 -
      degenMap.rpmAxis.getD (lowerIndex degenMap.rpmAxis RPM_POINTS 1500) 0 = 0 ∧
    degenMap.targetAFR 1500 60 = 64 / 5 := by
  constructor
  · decide
  · norm_num [degenMap, FuelMap.construct, degenRpmAxis, mainAfrTable, mainLoadAxis,
      FuelMap.targetAFR, lowerIndex, lowerIndexLoop, lerp, tableIndex,
      RPM_POINTS, LOAD_POINTS, TABLE_SIZE]

/-- C4 amended: `targetAFR` contains no degenerate-interval detection and signals
no error; with strictly increasing axes the intervals selected by `lowerIndex`
always have positive width, so the interpolation divisions are never by zero. -/
theorem claim_targetAFR_denominators (m : FuelMap) (rpm load : Int)
    (hrmono : ∀ i, i < RPM_POINTS - 1 → m.rpmAxis.getD i 0 < m.rpmAxis.getD (i + 1) 0)
    (hlmono : ∀ i, i < LOAD_POINTS - 1 → m.loadAxis.getD i 0 < m.loadAxis.getD (i + 1) 0) :
    0 < m.rpmAxis.getD (lowerIndex m.rpmAxis RPM_POINTS rpm + 1) 0 -
        m.rpmAxis.getD (lowerIndex m.rpmAxis RPM_POINTS rpm) 0 ∧
    0 < m.loadAxis.getD (lowerIndex m.loadAxis LOAD_POINTS load + 1) 0 -
        m.loadAxis.getD (lowerIndex m.loadAxis LOAD_POINTS load) 0 := by
  have hr := lowerIndex_le m.rpmAxis RPM_POINTS rpm (by norm_num [RPM_POINTS])
  have hl := lowerIndex_le m.loadAxis LOAD_POINTS load (by norm_num [LOAD_POINTS])
  have h1 := hrmono (lowerIndex m.rpmAxis RPM_POINTS rpm)
    (by simp only [RPM_POINTS] at hr ⊢; omega)
  have h2 := hlmono (lowerIndex m.loadAxis LOAD_POINTS load)
    (by simp only [LOAD_POINTS] at hl ⊢; omega)
  omega

/-- Witness for the amended C4 theorem on the main map. -/
theorem claim_targetAFR_denominators_witness :
    0 < mainMap.rpmAxis.getD (lowerIndex mainMap.rpmAxis RPM_POINTS 3500 + 1) 0 -
        mainMap.rpmAxis.getD (lowerIndex mainMap.rpmAxis RPM_POINTS 3500) 0 ∧
    0 < mainMap.loadAxis.getD (lowerIndex mainMap.loadAxis LOAD_POINTS 80 + 1) 0 -
        mainMap.loadAxis.getD (lowerIndex mainMap.loadAxis LOAD_POINTS 80) 0 :=
  claim_targetAFR_denominators mainMap 3500 80 (by decide) (by decide)

/-- C5 counterexample: the query value 3000 equals the breakpoint at index 2 of the
main rpm axis, but `lowerIndex` returns 1 (the interval ending at 3000), not 2
(the interval starting at 3000). -/
theorem claim_breakpoint_tie_cx :
    mainRpmAxis.getD 2 0 = 3000 ∧
    lowerIndex mainRpmAxis RPM_POINTS 3000 = 1 ∧ (1 : Nat) ≠ 2 :=
  ⟨by decide, by decide, by decide⟩

/-- Witness for the C5 (amended) characterization: at breakpoint 3000 of the main
rpm axis the locator returns index 1. -/
theorem claim_locator_witness : lowerIndex mainRpmAxis 6 3000 = 1 :=
  (lowerIndex_characterization mainRpmAxis 6 3000 (by norm_num) (by decide)).2.2.2
    2 (by norm_num) (by norm_num) (by decide)


/-- C6: cold-start enrichment is the identity for coolant temperature at or above
90, otherwise it returns `afr * (1.3 - (coolantTemp/90)*0.3)`, and at temperature
0 it multiplies the AFR by exactly 1.3. -/
theorem claim_coldstart_formula (afr coolantTempC : ℚ) :
    (90 ≤ coolantTempC → applyColdStartEnrichment afr coolantTempC = afr) ∧
    (coolantTempC < 90 → applyColdStartEnrichment afr coolantTempC =
      afr * (1.3 - coolantTempC / 90 * 0.3)) ∧
    applyColdStartEnrichment afr 0 = afr * 1.3 := by
  refine ⟨fun h => ?_, fun h => ?_, ?_⟩
  · rw [applyColdStartEnrichment, if_pos h]
  · rw [applyColdStartEnrichment, if_neg (not_le.mpr h)]
  · rw [applyColdStartEnrichment, if_neg (by norm_num)]
    norm_num

/-- Witness for C6 at concrete temperatures 95 (hot branch) and 45 (cold branch). -/
theorem claim_coldstart_formula_witness :
    applyColdStartEnrichment 10 95 = 10 ∧
    applyColdStartEnrichment 10 45 = 10 * (1.3 - 45 / 90 * 0.3) :=
  ⟨(claim_coldstart_formula 10 95).1 (by norm_num),
   (claim_coldstart_formula 10 45).2.1 (by norm_num)⟩

/-- C7 (code bug evidence): at AFR 10 and coolant temperature 0 the cold-start
stage returns 13, a HIGHER (leaner) AFR, contradicting the claim that enrichment
lowers the AFR for every positive input below 90 degrees. -/
theorem claim_coldstart_leans_at_zero :
    applyColdStartEnrichment 10 0 = 13 ∧ ¬ applyColdStartEnrichment 10 0 < 10 := by
  constructor
  · rw [applyColdStartEnrichment, if_neg (by norm_num)]
    norm_num
  · rw [applyColdStartEnrichment, if_neg (by norm_num)]
    norm_num

/-- C8: round-trip law of the converter: with positive flow rate and positive
corrected AFR, `pulseWidth * flowRate * correctedAFR = airMass` exactly. -/
theorem claim_roundtrip (m : FuelMap) (inj : Injector) (s : EngineState)
    (hflow : 0 < inj.flowRate)
    (hafr : 0 < m.getFinalAFR s.rpm s.map s.coolantTempC s.measuredAFR) :
    FuelController.computePulseWidth { fuelMap := m, injector := inj } s *
      inj.flowRate * m.getFinalAFR s.rpm s.map s.coolantTempC s.measuredAFR =
      s.airMass := by
  have h1 : inj.flowRate ≠ 0 := ne_of_gt hflow
  have h2 : m.getFinalAFR s.rpm s.map s.coolantTempC s.measuredAFR ≠ 0 := ne_of_gt hafr
  show s.airMass / m.getFinalAFR s.rpm s.map s.coolantTempC s.measuredAFR /
      inj.flowRate * inj.flowRate *
      m.getFinalAFR s.rpm s.map s.coolantTempC s.measuredAFR = s.airMass
  field_simp
  ring

/-- Witness for C8 at the main scenario. -/
theorem claim_roundtrip_witness :
    FuelController.computePulseWidth
        { fuelMap := mainMap, injector := mainInjector } mainState *
      mainInjector.flowRate *
      mainMap.getFinalAFR mainState.rpm mainState.map mainState.coolantTempC
        mainState.measuredAFR = mainState.airMass :=
  claim_roundtrip mainMap mainInjector mainState (by norm_num [mainInjector])
    (by simp only [mainState]; rw [mainFinalAFR_eq]; norm_num)

/-- C9: the axis locator always lands in [0, size-2]; consequently the four table
reads of `targetAFR` all fall inside the `TABLE_SIZE` table. -/
theorem claim_lookup_bounds (axis : List Int) (size : Nat) (value : Int)
    (hsize : 2 ≤ size)
    (_hmono : ∀ i, i < size - 1 → axis.getD i 0 < axis.getD (i + 1) 0)
    (m : FuelMap) (rpm load : Int) :
    lowerIndex axis size value ≤ size - 2 ∧
    lowerIndex m.rpmAxis RPM_POINTS rpm + 1 ≤ RPM_POINTS - 1 ∧
    lowerIndex m.loadAxis LOAD_POINTS load + 1 ≤ LOAD_POINTS - 1 ∧
    tableIndex (lowerIndex m.loadAxis LOAD_POINTS load)
      (lowerIndex m.rpmAxis RPM_POINTS rpm) < TABLE_SIZE ∧
    tableIndex (lowerIndex m.loadAxis LOAD_POINTS load)
      (lowerIndex m.rpmAxis RPM_POINTS rpm + 1) < TABLE_SIZE ∧
    tableIndex (lowerIndex m.loadAxis LOAD_POINTS load + 1)
      (lowerIndex m.rpmAxis RPM_POINTS rpm) < TABLE_SIZE ∧
    tableIndex (lowerIndex m.loadAxis LOAD_POINTS load + 1)
      (lowerIndex m.rpmAxis RPM_POINTS rpm + 1) < TABLE_SIZE := by
  have hgen := lowerIndex_le axis size value hsize
  have hr := lowerIndex_le m.rpmAxis RPM_POINTS rpm (by norm_num [RPM_POINTS])
  have hl := lowerIndex_le m.loadAxis LOAD_POINTS load (by norm_num [LOAD_POINTS])
  simp only [RPM_POINTS, LOAD_POINTS, TABLE_SIZE, tableIndex] at hr hl ⊢
  omega

/-- Witness for C9 at the main axes, map and query. -/
theorem claim_lookup_bounds_witness :
    lowerIndex mainRpmAxis 6 3500 ≤ 6 - 2 ∧
    lowerIndex mainMap.rpmAxis RPM_POINTS 3500 + 1 ≤ RPM_POINTS - 1 ∧
    lowerIndex mainMap.loadAxis LOAD_POINTS 80 + 1 ≤ LOAD_POINTS - 1 ∧
    tableIndex (lowerIndex mainMap.loadAxis LOAD_POINTS 80)
      (lowerIndex mainMap.rpmAxis RPM_POINTS 3500) < TABLE_SIZE ∧
    tableIndex (lowerIndex mainMap.loadAxis LOAD_POINTS 80)
      (lowerIndex mainMap.rpmAxis RPM_POINTS 3500 + 1) < TABLE_SIZE ∧
    tableIndex (lowerIndex mainMap.loadAxis LOAD_POINTS 80 + 1)
      (lowerIndex mainMap.rpmAxis RPM_POINTS 3500) < TABLE_SIZE ∧
    tableIndex (lowerIndex mainMap.loadAxis LOAD_POINTS 80 + 1)
      (lowerIndex mainMap.rpmAxis RPM_POINTS 3500 + 1) < TABLE_SIZE :=
  claim_lookup_bounds mainRpmAxis 6 3500 (by norm_num) (by decide) mainMap 3500 80

/-- C10: closed-loop correction sends any positive AFR whose error over the
measured value is at least 10 to a non-positive corrected AFR, and
`computePulseWidth` uses the corrected AFR as an unguarded divisor. -/
theorem claim_closedloop_nonpositive (afr measured : ℚ)
    (hafr : 0 < afr) (herr : 10 ≤ afr - measured) :
    applyClosedLoopCorrection afr measured ≤ 0 ∧
    ∀ (m : FuelMap) (inj : Injector) (s : EngineState),
      FuelController.computePulseWidth { fuelMap := m, injector := inj } s =
        s.airMass / m.getFinalAFR s.rpm s.map s.coolantTempC s.measuredAFR /
          inj.flowRate := by
  constructor
  · have hfac : 1 - 0.1 * (afr - measured) ≤ 0 := by nlinarith [herr]
    show afr * (1 - 0.1 * (afr - measured)) ≤ 0
    nlinarith [hafr, hfac]
  · intro m inj s
    rfl

/-- Witness for C10 at AFR 15 and measured AFR 0. -/
theorem claim_closedloop_nonpositive_witness :
    applyClosedLoopCorrection 15 0 ≤ 0 :=
  (claim_closedloop_nonpositive 15 0 (by norm_num) (by norm_num)).1

end FuelMapSim
